import Mathlib

/-!
Shallow embedding of `miniapps/mhd/imResistiveMHDOperatorp.hpp`
(classes `ResistiveMHDOperator` and `ReducedSystemOperator`).

The spatial discretization produces true-DOF vectors of length `3*n`
partitioned as `[phi | psi | w]`.  We model a true-DOF vector as
`Fin n → ℚ` and a distributed matrix as `Fin n → Fin n → ℚ`; the
MFEM/hypre/PETSc collaborators (the Krylov solves, `FormLinearSystem`,
the convection-operator assembly from a grid function, the Newton
solver) are out of scope per the design and are carried as opaque-to-us
function fields of the operator records, so every theorem quantifies
over their behaviour.

The header is a work-in-progress snapshot: the `ImplicitSolve`
definition is written under the class name `HyperelasticOperator`, the
`ReducedSystemOperator` constructor body is truncated, and its `Mult`
refers to `psiGF` (a typo for `psiGf`) and to a `KB` operator that the
class declaration omits.  We embed the evident semantics of the written
bodies and note each such slip at the definition it concerns.
-/

namespace MHD

/-- A true-DOF vector of the discretization (length `n`). -/
abbrev Vec (n : ℕ) := Fin n → ℚ

/-- A distributed matrix acting on true-DOF vectors. -/
abbrev Mat (n : ℕ) := Fin n → Fin n → ℚ

/-- Matrix action `A·v` (models `HypreParMatrix::Mult` /
`ParBilinearForm::TrueAddMult`'s added term). -/
def mulv {n : ℕ} (A : Mat n) (v : Vec n) : Vec n :=
  fun i => ∑ j, A i j * v j

/-- Model of `Vector::SetSubVector(list, a)`: overwrite the listed entries with `a`. -/
def setSub {n : ℕ} (v : Vec n) (ess : Finset (Fin n)) (a : ℚ) : Vec n :=
  fun i => if i ∈ ess then a else v i

/-- Outcome of running a C++ member function: a normal return value, an
`MFEM_VERIFY`-style abort carrying its diagnostic message, or the
undefined behaviour of dereferencing a null pointer (no check, no
message). -/
inductive ExecResult (α : Type) where
  | ok : α → ExecResult α
  | fatalError : String → ExecResult α
  | nullDeref : ExecResult α
deriving DecidableEq

/-- The diagnostic message of the `MFEM_VERIFY` check in
`ImplicitSolve` (lines 317-318). -/
def newtonFailMsg : String := "Newton solver did not converge."

/-- A full state `[phi | psi | w]` as its three blocks. -/
abbrev State (n : ℕ) := Vec n × Vec n × Vec n

/-- The zero block vector (the empty `Vector zero` handed to the PETSc
Newton solver is interpreted as a zero right-hand side). -/
def zeroState (n : ℕ) : State n := (fun _ => 0, fun _ => 0, fun _ => 0)

/-- Embedding of `ReducedSystemOperator` (the backward-Euler residual
`F(k)` handed to the Newton solver).  Fields mirror the class members:
the cached matrices, the optional diffusion operators `DRe`/`DSl`
(pointers, guarded by `!=NULL` in `Mult`), the optional forcing vector
`E0Vec`, the current grid function `*j0` supplied by `SetCurrent`, the
step data `(dt, phi, psi, w)` set by `SetParameters`, and the mutable
cached nonlinear operators `Nv`/`Nb` left over from the previous call.
`assembleN` stands for the collaborator assembly
`ConvectionIntegrator(MyCoefficient(gf,2))` used identically for `Nv`
and `Nb`; `mSolveBC` stands for the composite
`M->FormLinearSystem(ess, bdry, rhs, A, X, B); M_solver.Mult(B, X)`
returning the solved true-DOF vector. -/
structure RedOp (n : ℕ) where
  ess : Finset (Fin n)
  Mmat : Mat n
  Kmat : Mat n
  KB : Mat n
  DRe : Option (Mat n)
  DSl : Option (Mat n)
  E0Vec : Option (Vec n)
  j0 : Vec n
  dt : ℚ
  phi : Vec n
  psi : Vec n
  w : Vec n
  Nv : Option (Mat n)
  Nb : Option (Mat n)
  assembleN : Vec n → Mat n
  mSolveBC : Vec n → Vec n → Vec n

/-- Model of `ReducedSystemOperator::SetParameters`: store the step size and the
start-of-step blocks. -/
def setParameters {n : ℕ} (op : RedOp n) (dt : ℚ) (phi psi w : Vec n) : RedOp n :=
  { op with dt := dt, phi := phi, psi := psi, w := w }

/-- Model of `ReducedSystemOperator::Mult(k, y)` (lines 407-467), returning the
post-call operator state (with the rebuilt `Nv`, `Nb`) and the residual
blocks `(y1, y2, y3)`.

Faithful points: `Nv` is deleted and rebuilt from the phi-block of the
iterate `k` and `Nb` from its psi-block before either is applied; the
current `J` is recovered from the iterate's psi-block with `*j0` as
boundary data (`psiGF` in the source is the grid function of that
block); the guarded `if (E0Vec!=NULL) z += *E0Vec;` on line 455 updates
the scratch `z` after `z` was already consumed into `y2` (line 450) and
before `z` is overwritten (line 459), so the forcing never reaches the
returned `y2` — the dead write is kept below as `zDead`; each block is
finished by `SetSubVector(ess_tdof_list, 0.0)`. -/
def reducedMult {n : ℕ} (op : RedOp n) (k : State n) : RedOp n × State n :=
  let phiNew := k.1
  let psiNew := k.2.1
  let wNew := k.2.2
  let nv := op.assembleN phiNew
  let nb := op.assembleN psiNew
  let Jcur := op.mSolveBC op.j0 (fun i => -(mulv op.KB psiNew i))
  let y1 := setSub (fun i => mulv op.Kmat phiNew i + mulv op.Mmat wNew i) op.ess 0
  let z := fun i => (psiNew i - op.psi i) / op.dt
  let y2a := fun i => mulv op.Mmat z i + mulv nv psiNew i
  let y2b := match op.DSl with
    | some d => fun i => y2a i + mulv d psiNew i
    | none => y2a
  let zDead := match op.E0Vec with
    | some e => fun i => z i + e i
    | none => z
  let y2 := setSub y2b op.ess 0
  let z2 := fun i => (wNew i - op.w i) / op.dt
  let y3a := fun i => mulv op.Mmat z2 i + mulv nv wNew i
  let y3b := match op.DRe with
    | some d => fun i => y3a i + mulv d wNew i
    | none => y3a
  let y3c := fun i => y3b i + mulv nb Jcur i
  let y3 := setSub y3c op.ess 0
  let _ := zDead
  ({ op with Nv := some nv, Nb := some nb }, (y1, y2, y3))

/-- Embedding of `ResistiveMHDOperator` (the explicit right-hand-side
evaluator).  Fields mirror the class members that the evaluator, the
setters and `UpdatePhi` read or write: the essential true-DOF list, the
assembled matrices `Mmat`, `Kmat`, `KB` (= K − B), the
coefficient-scaled diffusion matrices `DSl`, `DRe`, the transport
coefficients, the optional forcing vector `E0Vec` (null until
`SetRHSEfield`), the optional nonlinear operators `Nv`, `Nb` (null
until `assembleNv`/`assembleNb`), the auxiliary current grid function
`j`, and the `useAMG` flag.  `Msolve`, `Ksolve`, `Kpcg` stand for the
persistent collaborator solver contexts `M_solver`, `K_solver`,
`K_pcg`; `mSolveBC` for the composite
`M->FormLinearSystem(ess, bdry, rhs, A, X, B); M_solver.Mult(B, X)`;
`assembleN` for `ConvectionIntegrator(MyCoefficient(gf,2))` assembly. -/
structure MHDOp (n : ℕ) where
  ess : Finset (Fin n)
  Mmat : Mat n
  Kmat : Mat n
  KB : Mat n
  DSl : Mat n
  DRe : Mat n
  viscosity : ℚ
  resistivity : ℚ
  E0Vec : Option (Vec n)
  Nv : Option (Mat n)
  Nb : Option (Mat n)
  j : Vec n
  useAMG : Bool
  Msolve : Vec n → Vec n
  Ksolve : Vec n → Vec n
  Kpcg : Vec n → Vec n
  mSolveBC : Vec n → Vec n → Vec n
  assembleN : Vec n → Mat n

/-- The `ResistiveMHDOperator` constructor (lines 140-211).  The mesh
assembly of the integrators is collaborator work, so the assembled
mass, stiffness, stiffness-with-boundary-flux and unit-coefficient
diffusion matrices (`massA`, `stiffA`, `kbA`, `diffA`) and the solver
contexts arrive as parameters; the constructor then scales the
diffusion matrix by the constant coefficients (`DSl` by `resi`, `DRe`
by `visc`), leaves `Nv`, `Nb`, `E0Vec` null, and sets `useAMG` to
`false` (both in the initializer list and again on line 172; the
`if (useAMG)` AMG setup on line 173 is therefore never taken).  The
member `j` is the default-constructed grid function, modelled as the
zero vector. -/
def construct (n : ℕ) (ess : Finset (Fin n)) (massA stiffA kbA diffA : Mat n)
    (visc resi : ℚ) (Msolve Ksolve Kpcg : Vec n → Vec n)
    (mSolveBC : Vec n → Vec n → Vec n) (assembleN : Vec n → Mat n) : MHDOp n :=
  { ess := ess
    Mmat := massA
    Kmat := stiffA
    KB := kbA
    DSl := fun i j => resi * diffA i j
    DRe := fun i j => visc * diffA i j
    viscosity := visc
    resistivity := resi
    E0Vec := none
    Nv := none
    Nb := none
    j := fun _ => 0
    useAMG := false
    Msolve := Msolve
    Ksolve := Ksolve
    Kpcg := Kpcg
    mSolveBC := mSolveBC
    assembleN := assembleN }

/-- Model of `ResistiveMHDOperator::SetRHSEfield`: assemble the forcing linear
form and store its parallel-assembled vector, replacing any previous
one. -/
def setRHSEfield {n : ℕ} (op : MHDOp n) (e : Vec n) : MHDOp n :=
  { op with E0Vec := some e }

/-- Model of `ResistiveMHDOperator::SetInitialJ`: project the given coefficient
onto the current grid function `j`. -/
def setInitialJ {n : ℕ} (op : MHDOp n) (jv : Vec n) : MHDOp n :=
  { op with j := jv }

/-- Model of `ResistiveMHDOperator::assembleNv`: delete and rebuild `Nv` from
the supplied grid function. -/
def assembleNvOp {n : ℕ} (op : MHDOp n) (g : Vec n) : MHDOp n :=
  { op with Nv := some (op.assembleN g) }

/-- Model of `ResistiveMHDOperator::assembleNb`: delete and rebuild `Nb` from
the supplied grid function. -/
def assembleNbOp {n : ℕ} (op : MHDOp n) (g : Vec n) : MHDOp n :=
  { op with Nb := some (op.assembleN g) }

/-- The auxiliary-current recovery of `ResistiveMHDOperator::Mult`
(lines 270-278): `KB->Mult(gf, zFull); zFull.Neg();
M->FormLinearSystem(ess_tdof_list, j, zFull, A, J, Z);
M_solver.Mult(Z, J)` — the boundary-respecting solve of
`M·J = -(K−B)·psi` with the member `j` supplying boundary data and the
iterative-mode initial guess, solved into the local vector `J`.
(`gf` is the grid function bound to the psi-block by `BindingGF`.) -/
def recoverCurrent {n : ℕ} (op : MHDOp n) (psi : Vec n) : Vec n :=
  op.mSolveBC op.j (fun i => -(mulv op.KB psi i))

/-- The flux scratch vector of `ResistiveMHDOperator::Mult`
(lines 281-288): `z = Nv·psi [+ DSl·psi if resistivity ≠ 0]
[+ E0Vec if configured]`. -/
def fluxScratch {n : ℕ} (op : MHDOp n) (nv : Mat n) (psi : Vec n) : Vec n :=
  fun i => mulv nv psi i
    + (if op.resistivity ≠ 0 then mulv op.DSl psi i else 0)
    + (match op.E0Vec with | some e => e i | none => 0)

/-- The flux-derivative block of `ResistiveMHDOperator::Mult`
(lines 289-291): negate the scratch, zero the essential rows, solve
with `M_solver`. -/
def fluxDeriv {n : ℕ} (op : MHDOp n) (nv : Mat n) (psi : Vec n) : Vec n :=
  op.Msolve (setSub (fun i => -(fluxScratch op nv psi i)) op.ess 0)

/-- The vorticity scratch vector of `ResistiveMHDOperator::Mult`
(lines 293-300): `z = -(Nv·w [+ DRe·w if viscosity ≠ 0]) + Nb·J`,
where `J` is the current recovered from this call's psi. -/
def vortScratch {n : ℕ} (op : MHDOp n) (nv nb : Mat n) (psi w : Vec n) : Vec n :=
  fun i => -(mulv nv w i + (if op.viscosity ≠ 0 then mulv op.DRe w i else 0))
    + mulv nb (recoverCurrent op psi) i

/-- The vorticity-derivative block of `ResistiveMHDOperator::Mult`
(lines 301-302): zero the essential rows, solve with `M_solver`. -/
def vortDeriv {n : ℕ} (op : MHDOp n) (nv nb : Mat n) (psi w : Vec n) : Vec n :=
  op.Msolve (setSub (vortScratch op nv nb psi w) op.ess 0)

/-- Model of `ResistiveMHDOperator::Mult(vx, dvx_dt)` (lines 230-304).  `dvxPrev`
is the content of the output vector on entry; the body starts with
`dvx_dt = 0.0`, which clears all three blocks including the phi-block,
and the phi-block is never written again, so the returned phi-block is
zero whatever `dvxPrev` held.  `Nv->TrueAddMult` and `Nb->TrueAddMult`
are called without any null check, so on an operator whose nonlinear
parts were never assembled the evaluation is a null-pointer
dereference, not a diagnosable error.  The member `j` is only read (as
boundary data and initial guess of the current recovery); the solved
current lives in the local `J` and `RecoverFEMSolution` is never
called, so no member field is written by the call. -/
def explicitMult {n : ℕ} (op : MHDOp n) (vx : State n) (dvxPrev : State n) :
    ExecResult (State n) :=
  let _ := dvxPrev
  match op.Nv, op.Nb with
  | some nv, some nb =>
      .ok ((fun _ => 0), fluxDeriv op nv vx.2.1, vortDeriv op nv nb vx.2.1 vx.2.2)
  | _, _ => .nullDeref

/-- Model of `ResistiveMHDOperator::Mult` together with the operator state after
the call: `Mult` is `const` and writes only the scratch members
(`z`, `zFull`, `gf`) and the local solve vectors, so the persistent
state — in particular the current grid function `j` — is returned
unchanged. -/
def explicitMultRun {n : ℕ} (op : MHDOp n) (vx : State n) (dvxPrev : State n) :
    MHDOp n × ExecResult (State n) :=
  (op, explicitMult op vx dvxPrev)

/-- Model of `ResistiveMHDOperator::UpdatePhi` (lines 346-361): solve
`K·phi = -M·w` with essential rows zeroed, through `K_pcg` when
`useAMG` and through `K_solver` otherwise; returns the new phi-block. -/
def updatePhi {n : ℕ} (op : MHDOp n) (w : Vec n) : Vec n :=
  let z := setSub (fun i => -(mulv op.Mmat w i)) op.ess 0
  if op.useAMG then op.Kpcg z else op.Ksolve z

/-- Model of `ImplicitSolve(dt, vx, k)` (lines 306-323; the definition is
written under the stray class name `HyperelasticOperator`, a
copy-paste slip — `reduced_oper` and `pnewton_solver` are
`ResistiveMHDOperator` members).  The reduced operator is configured
with `SetParameters(dt, &phi, &psi, &w)` from the blocks of `vx`; the
PETSc Newton solver is modelled as the collaborator `newton`, called
once with the configured operator and the zero right-hand side (the
empty `Vector zero`), returning `some k` on convergence and `none`
otherwise; `MFEM_VERIFY(GetConverged(), "Newton solver did not
converge.")` turns non-convergence into a fatal diagnostic; on
convergence the solved new state is transformed by `k -= vx; k /= dt`. -/
def implicitSolve {n : ℕ} (rop : RedOp n)
    (newton : RedOp n → State n → Option (State n))
    (dt : ℚ) (vx : State n) : ExecResult (State n) :=
  let rop' := setParameters rop dt vx.1 vx.2.1 vx.2.2
  match newton rop' (zeroState n) with
  | some knew =>
      .ok (fun i => (knew.1 i - vx.1 i) / dt,
           fun i => (knew.2.1 i - vx.2.1 i) / dt,
           fun i => (knew.2.2 i - vx.2.2 i) / dt)
  | none => .fatalError newtonFailMsg

/-! Concrete fixtures on a one-DOF discretization, used to instantiate
the theorems below on closed inputs. -/

/-- The all-ones vector on one DOF. -/
def vOne : Vec 1 := fun _ => 1

/-- The zero vector on one DOF. -/
def vZero : Vec 1 := fun _ => 0

/-- The one-by-one matrix with entry 1. -/
def mOne : Mat 1 := fun _ _ => 1

/-- The one-by-one zero matrix. -/
def mZero : Mat 1 := fun _ _ => 0

/-- A concrete reduced operator with the single DOF essential. -/
def redOpA : RedOp 1 :=
  { ess := {0}
    Mmat := mOne
    Kmat := mOne
    KB := mOne
    DRe := some mOne
    DSl := some mOne
    E0Vec := none
    j0 := vZero
    dt := 1
    phi := vZero
    psi := vZero
    w := vZero
    Nv := none
    Nb := none
    assembleN := fun _ => mZero
    mSolveBC := fun _ rhs => rhs }

/-- A concrete explicit operator with assembled (zero) nonlinear parts,
identity mass matrix, no essential DOFs, and exact trivial solver
contexts. -/
def opA : MHDOp 1 :=
  { ess := ∅
    Mmat := mOne
    Kmat := mOne
    KB := mOne
    DSl := mOne
    DRe := mOne
    viscosity := 0
    resistivity := 0
    E0Vec := none
    Nv := some mZero
    Nb := some mZero
    j := vZero
    useAMG := false
    Msolve := id
    Ksolve := id
    Kpcg := id
    mSolveBC := fun _ rhs => rhs
    assembleN := fun _ => mZero }

/-- The fixture `opA` with nonzero transport coefficients. -/
def opB : MHDOp 1 :=
  { opA with viscosity := 1, resistivity := 1 }

/-- A state whose psi-block is one and whose other blocks are zero. -/
def sPsiOne : State 1 := (vZero, vOne, vZero)

/-- The all-ones state. -/
def sOne : State 1 := (vOne, vOne, vOne)

/-- A Newton collaborator that always converges to the all-twos state. -/
def newtonTwo : RedOp 1 → State 1 → Option (State 1) :=
  fun _ _ => some (fun _ => 2, fun _ => 2, fun _ => 2)

/-- A Newton collaborator that never converges. -/
def newtonNo : RedOp 1 → State 1 → Option (State 1) :=
  fun _ _ => none

/-- C3: after every evaluation of `ReducedSystemOperator::Mult`, the
entries of all three output blocks `y1`, `y2`, `y3` at every essential
DOF are exactly zero, for every iterate and every start-of-step state
(the `SetSubVector(ess_tdof_list, 0.0)` calls on lines 445, 456, 466
finish each block). -/
theorem reducedMult_ess_rows_zero {n : ℕ} (op : RedOp n) (k : State n)
    (i : Fin n) (h : i ∈ op.ess) :
    (reducedMult op k).2.1 i = 0 ∧ (reducedMult op k).2.2.1 i = 0 ∧
      (reducedMult op k).2.2.2 i = 0 := by
  refine ⟨?_, ?_, ?_⟩ <;> simp [reducedMult, setSub, h]

/-- Witness for C3 at the one-DOF fixture with the DOF essential. -/
theorem reducedMult_ess_rows_zero_witness :
    (0 : Fin 1) ∈ redOpA.ess ∧
      ((reducedMult redOpA sOne).2.1 0 = 0 ∧
        (reducedMult redOpA sOne).2.2.1 0 = 0 ∧
        (reducedMult redOpA sOne).2.2.2 0 = 0) :=
  ⟨by decide, reducedMult_ess_rows_zero redOpA sOne 0 (by decide)⟩

/-- C8: every evaluation of `ReducedSystemOperator::Mult` rebuilds `Nv`
from the phi-block of this call's iterate and `Nb` from its psi-block
(lines 419-434), and both the residual and the post-call state are
independent of the `Nv`/`Nb` left over from any previous call. -/
theorem reducedMult_rebuilds_nonlinear {n : ℕ} (op : RedOp n) (k : State n)
    (nv0 nb0 : Option (Mat n)) :
    (reducedMult op k).1.Nv = some (op.assembleN k.1) ∧
      (reducedMult op k).1.Nb = some (op.assembleN k.2.1) ∧
      reducedMult { op with Nv := nv0, Nb := nb0 } k =
        reducedMult { op with Nv := none, Nb := none } k :=
  ⟨rfl, rfl, rfl⟩

/-- C10: `useAMG` is `false` on every constructed operator, stays
`false` under every public mutator, and `UpdatePhi` therefore always
takes the `K_solver` branch — its result does not depend on the
`K_amg`/`K_pcg` context at all. -/
theorem construct_useAMG_false {n : ℕ} (ess : Finset (Fin n))
    (massA stiffA kbA diffA : Mat n) (visc resi : ℚ)
    (Ms Ks Kp : Vec n → Vec n) (mbc : Vec n → Vec n → Vec n)
    (asm : Vec n → Mat n) :
    (construct n ess massA stiffA kbA diffA visc resi Ms Ks Kp mbc asm).useAMG = false ∧
      (∀ e, (setRHSEfield (construct n ess massA stiffA kbA diffA visc resi Ms Ks Kp mbc asm) e).useAMG = false) ∧
      (∀ jv, (setInitialJ (construct n ess massA stiffA kbA diffA visc resi Ms Ks Kp mbc asm) jv).useAMG = false) ∧
      (∀ g, (assembleNvOp (construct n ess massA stiffA kbA diffA visc resi Ms Ks Kp mbc asm) g).useAMG = false) ∧
      (∀ g, (assembleNbOp (construct n ess massA stiffA kbA diffA visc resi Ms Ks Kp mbc asm) g).useAMG = false) ∧
      (∀ w, updatePhi (construct n ess massA stiffA kbA diffA visc resi Ms Ks Kp mbc asm) w =
        Ks (setSub (fun i => -(mulv massA w i)) ess 0)) ∧
      (∀ p w, updatePhi { construct n ess massA stiffA kbA diffA visc resi Ms Ks Kp mbc asm with Kpcg := p } w =
        updatePhi (construct n ess massA stiffA kbA diffA visc resi Ms Ks Kp mbc asm) w) :=
  ⟨rfl, fun _ => rfl, fun _ => rfl, fun _ => rfl, fun _ => rfl,
    fun _ => rfl, fun _ _ => rfl⟩

/-- C6: in `ResistiveMHDOperator::Mult`, when the resistivity is
exactly `0.0` the result is independent of the `DSl` matrix (its action
is never taken, lines 283-286), and symmetrically for viscosity and
`DRe` (lines 295-298); for nonzero coefficients the corresponding
diffusion term is included in the flux and vorticity scratch vectors. -/
theorem explicitMult_zero_coeff_skip {n : ℕ} (op : MHDOp n) (vx dvxPrev : State n) :
    (op.resistivity = 0 →
      ∀ D, explicitMult { op with DSl := D } vx dvxPrev = explicitMult op vx dvxPrev) ∧
    (op.viscosity = 0 →
      ∀ D, explicitMult { op with DRe := D } vx dvxPrev = explicitMult op vx dvxPrev) ∧
    (op.resistivity ≠ 0 → ∀ nv psi, fluxScratch op nv psi =
      fun i => mulv nv psi i + mulv op.DSl psi i +
        (match op.E0Vec with | some e => e i | none => 0)) ∧
    (op.viscosity ≠ 0 → ∀ nv nb psi w, vortScratch op nv nb psi w =
      fun i => -(mulv nv w i + mulv op.DRe w i) +
        mulv nb (recoverCurrent op psi) i) := by
  refine ⟨?_, ?_, ?_, ?_⟩
  · intro h D
    obtain ⟨ess, Mm, Km, KBm, DSlm, DRem, visc, resi, E0, Nvf, Nbf, jv, amg,
      Ms, Ks, Kp, mbc, asm⟩ := op
    dsimp only at h ⊢
    subst h
    cases Nvf <;> cases Nbf <;> cases E0 <;> rfl
  · intro h D
    obtain ⟨ess, Mm, Km, KBm, DSlm, DRem, visc, resi, E0, Nvf, Nbf, jv, amg,
      Ms, Ks, Kp, mbc, asm⟩ := op
    dsimp only at h ⊢
    subst h
    cases Nvf <;> cases Nbf <;> cases E0 <;> rfl
  · intro h nv psi
    funext i
    simp [fluxScratch, h]
  · intro h nv nb psi w
    funext i
    simp [vortScratch, h]

/-- Witness for C6: the zero-coefficient conjuncts applied to the
fixture with zero coefficients and an altered diffusion matrix, and the
inclusion conjuncts applied to the fixture with unit coefficients. -/
theorem explicitMult_zero_coeff_skip_witness :
    (explicitMult { opA with DSl := mOne } sOne sOne = explicitMult opA sOne sOne) ∧
    (explicitMult { opA with DRe := mOne } sOne sOne = explicitMult opA sOne sOne) ∧
    (fluxScratch opB mOne vOne =
      fun i => mulv mOne vOne i + mulv opB.DSl vOne i +
        (match opB.E0Vec with | some e => e i | none => 0)) ∧
    (vortScratch opB mOne mOne vOne vOne =
      fun i => -(mulv mOne vOne i + mulv opB.DRe vOne i) +
        mulv mOne (recoverCurrent opB vOne) i) :=
  ⟨(explicitMult_zero_coeff_skip opA sOne sOne).1 rfl mOne,
   (explicitMult_zero_coeff_skip opA sOne sOne).2.1 rfl mOne,
   (explicitMult_zero_coeff_skip opB sOne sOne).2.2.1 (by decide) mOne vOne,
   (explicitMult_zero_coeff_skip opB sOne sOne).2.2.2 (by decide) mOne mOne vOne vOne⟩

/-- C4: `ImplicitSolve` configures the reduced system with
`SetParameters(dt, phi, psi, w)` taken from the blocks of `vx`, hands
root-finding to the Newton collaborator with the zero right-hand side,
and on convergence to `knew` returns `(knew − vx)/dt`, the
backward-Euler derivative whose update `vx + dt·k` is the solved new
state. -/
theorem implicitSolve_backward_euler {n : ℕ} (rop : RedOp n)
    (newton : RedOp n → State n → Option (State n)) (dt : ℚ)
    (vx knew : State n)
    (h : newton (setParameters rop dt vx.1 vx.2.1 vx.2.2) (zeroState n) = some knew) :
    ((setParameters rop dt vx.1 vx.2.1 vx.2.2).dt = dt ∧
      (setParameters rop dt vx.1 vx.2.1 vx.2.2).phi = vx.1 ∧
      (setParameters rop dt vx.1 vx.2.1 vx.2.2).psi = vx.2.1 ∧
      (setParameters rop dt vx.1 vx.2.1 vx.2.2).w = vx.2.2) ∧
    implicitSolve rop newton dt vx =
      .ok (fun i => (knew.1 i - vx.1 i) / dt,
           fun i => (knew.2.1 i - vx.2.1 i) / dt,
           fun i => (knew.2.2 i - vx.2.2 i) / dt) := by
  refine ⟨⟨rfl, rfl, rfl, rfl⟩, ?_⟩
  simp [implicitSolve, h]

/-- Witness for C4: with a collaborator converging to the all-twos
state from the all-ones state at `dt = 1`, the returned derivative is
the all-ones increment. -/
theorem implicitSolve_backward_euler_witness :
    newtonTwo (setParameters redOpA 1 sOne.1 sOne.2.1 sOne.2.2) (zeroState 1) =
      some (fun _ => 2, fun _ => 2, fun _ => 2) ∧
    implicitSolve redOpA newtonTwo 1 sOne =
      .ok (fun i => ((2 : ℚ) - sOne.1 i) / 1,
           fun i => ((2 : ℚ) - sOne.2.1 i) / 1,
           fun i => ((2 : ℚ) - sOne.2.2 i) / 1) :=
  ⟨rfl,
    (implicitSolve_backward_euler redOpA newtonTwo 1 sOne
      (fun _ => 2, fun _ => 2, fun _ => 2) rfl).2⟩

/-- C5: if the Newton collaborator does not converge, `ImplicitSolve`
raises the fatal diagnosable `MFEM_VERIFY` failure with its message; it
makes exactly one Newton call at the configured step size, so every
collaborator failing at this `dt` yields the same fatal outcome — there
is no retry at a reduced step size and no silent acceptance. -/
theorem implicitSolve_newton_failure {n : ℕ} (rop : RedOp n)
    (newton : RedOp n → State n → Option (State n)) (dt : ℚ) (vx : State n)
    (h : newton (setParameters rop dt vx.1 vx.2.1 vx.2.2) (zeroState n) = none) :
    implicitSolve rop newton dt vx = .fatalError newtonFailMsg ∧
      ∀ newton2 : RedOp n → State n → Option (State n),
        newton2 (setParameters rop dt vx.1 vx.2.1 vx.2.2) (zeroState n) = none →
        implicitSolve rop newton2 dt vx = .fatalError newtonFailMsg := by
  constructor
  · simp [implicitSolve, h]
  · intro newton2 h2
    simp [implicitSolve, h2]

/-- Witness for C5 with the never-converging collaborator. -/
theorem implicitSolve_newton_failure_witness :
    implicitSolve redOpA newtonNo 1 sOne = .fatalError newtonFailMsg :=
  (implicitSolve_newton_failure redOpA newtonNo 1 sOne rfl).1

/-- C1 (code bug): the entire residual returned by
`ReducedSystemOperator::Mult` — `y2` in particular — is independent of
the configured forcing vector `E0Vec`, because the only use of `E0Vec`
(line 455, `z += *E0Vec`) lands in the scratch `z` after `z` was
already consumed into `y2` (line 450) and just before `z` is
overwritten (line 459).  The spec's `y2` formula and the explicit
evaluator both include the forcing, so the dead write is a slip in the
code. -/
theorem reducedMult_forcing_never_reaches_y2 {n : ℕ} (op : RedOp n)
    (k : State n) (e : Vec n) :
    (reducedMult { op with E0Vec := some e } k).2 =
      (reducedMult { op with E0Vec := none } k).2 :=
  rfl

/-- C2 (counterexample): after `ResistiveMHDOperator::Mult` the member
current `j` does not hold the current recovered from this call's psi:
on the fixture (identity mass and KB matrices, no essential DOFs,
exact solver) the recovered current is the constant `-1` while `j`
stays at its prior value `0`, and the evaluation did succeed. -/
theorem explicitMult_j_not_updated_cex :
    (explicitMultRun opA sPsiOne (zeroState 1)).1.j ≠
      recoverCurrent opA sPsiOne.2.1 ∧
      (explicitMultRun opA sPsiOne (zeroState 1)).2 =
        .ok ((fun _ => 0), fluxDeriv opA mZero vOne, vortDeriv opA mZero mZero vOne vZero) := by
  refine ⟨?_, rfl⟩
  intro h
  have h0 := congrFun h 0
  simp [explicitMultRun, recoverCurrent, opA, sPsiOne, vZero, vOne, mOne,
    mulv] at h0

/-- C2 (amended): on every call, `Mult` leaves the member `j`
unchanged (the boundary-respecting solve writes the local vector `J`
and `RecoverFEMSolution` is never called); the current recovered from
this call's psi — with `j` serving only as boundary data and initial
guess of that solve — is what feeds the `Nb` term of the vorticity
block. -/
theorem explicitMult_j_unchanged_current_fresh {n : ℕ} (op : MHDOp n)
    (vx dvxPrev : State n) (nv nb : Mat n)
    (hv : op.Nv = some nv) (hb : op.Nb = some nb) :
    (explicitMultRun op vx dvxPrev).1.j = op.j ∧
      explicitMult op vx dvxPrev =
        .ok ((fun _ => 0), fluxDeriv op nv vx.2.1, vortDeriv op nv nb vx.2.1 vx.2.2) ∧
      vortDeriv op nv nb vx.2.1 vx.2.2 =
        op.Msolve (setSub
          (fun i => -(mulv nv vx.2.2 i +
              (if op.viscosity ≠ 0 then mulv op.DRe vx.2.2 i else 0)) +
            mulv nb (op.mSolveBC op.j (fun i => -(mulv op.KB vx.2.1 i))) i)
          op.ess 0) := by
  refine ⟨rfl, ?_, rfl⟩
  simp [explicitMult, hv, hb]

/-- Witness for the amended C2 at the one-DOF fixture. -/
theorem explicitMult_j_unchanged_current_fresh_witness :
    opA.Nv = some mZero ∧ opA.Nb = some mZero ∧
      ((explicitMultRun opA sPsiOne (zeroState 1)).1.j = opA.j ∧
        explicitMult opA sPsiOne (zeroState 1) =
          .ok ((fun _ => 0), fluxDeriv opA mZero sPsiOne.2.1,
            vortDeriv opA mZero mZero sPsiOne.2.1 sPsiOne.2.2) ∧
        vortDeriv opA mZero mZero sPsiOne.2.1 sPsiOne.2.2 =
          opA.Msolve (setSub
            (fun i => -(mulv mZero sPsiOne.2.2 i +
                (if opA.viscosity ≠ 0 then mulv opA.DRe sPsiOne.2.2 i else 0)) +
              mulv mZero (opA.mSolveBC opA.j (fun i => -(mulv opA.KB sPsiOne.2.1 i))) i)
            opA.ess 0)) :=
  ⟨rfl, rfl,
    explicitMult_j_unchanged_current_fresh opA sPsiOne (zeroState 1) mZero mZero rfl rfl⟩

/-- A freshly constructed operator on the one-DOF fixture space:
`Nv` and `Nb` are null, no forcing is configured. -/
def freshOp : MHDOp 1 :=
  construct 1 ∅ mOne mOne mOne mOne 0 0 id id id (fun _ rhs => rhs) (fun _ => mZero)

/-- C7 (counterexample): evaluating `Mult` on a freshly constructed
operator is the undefined behaviour of dereferencing the null `Nv`/`Nb`
pointers, not a diagnosable fatal failure: no `MFEM_VERIFY`-style
message is produced. -/
theorem explicitMult_fresh_no_diagnostic_cex :
    explicitMult freshOp (zeroState 1) (zeroState 1) = .nullDeref ∧
      ¬ ∃ msg, explicitMult freshOp (zeroState 1) (zeroState 1) =
        .fatalError msg := by
  refine ⟨rfl, ?_⟩
  rintro ⟨msg, hm⟩
  rw [show explicitMult freshOp (zeroState 1) (zeroState 1) =
    ExecResult.nullDeref from rfl] at hm
  exact ExecResult.noConfusion hm

/-- C7 (amended): every freshly constructed operator has null `Nv` and
`Nb`, and evaluating `Mult` on it dereferences them with no check —
the call is undefined behaviour, not a loud diagnosable failure. -/
theorem construct_fresh_mult_null_deref {n : ℕ} (ess : Finset (Fin n))
    (massA stiffA kbA diffA : Mat n) (visc resi : ℚ)
    (Ms Ks Kp : Vec n → Vec n) (mbc : Vec n → Vec n → Vec n)
    (asm : Vec n → Mat n) (vx dvxPrev : State n) :
    (construct n ess massA stiffA kbA diffA visc resi Ms Ks Kp mbc asm).Nv = none ∧
      (construct n ess massA stiffA kbA diffA visc resi Ms Ks Kp mbc asm).Nb = none ∧
      explicitMult (construct n ess massA stiffA kbA diffA visc resi Ms Ks Kp mbc asm)
        vx dvxPrev = .nullDeref :=
  ⟨rfl, rfl, rfl⟩

/-- C9 (counterexample): the phi-block of the output derivative vector
is not left untouched: on the fixture the output vector enters holding
all-ones, the evaluation succeeds with an all-zero derivative, so the
phi-block was overwritten with zero (by the initial `dvx_dt = 0.0`)
rather than preserved. -/
theorem explicitMult_phi_block_overwritten_cex :
    explicitMult opA sPsiOne sOne = .ok (zeroState 1) ∧
      sOne.1 ≠ (zeroState 1).1 := by
  constructor
  · have hf : fluxDeriv opA mZero vOne = (fun _ => 0) := by
      funext i
      simp [fluxDeriv, fluxScratch, opA, setSub, mulv, mZero, vOne]
    have hv : vortDeriv opA mZero mZero vOne vZero = (fun _ => 0) := by
      funext i
      simp [vortDeriv, vortScratch, recoverCurrent, opA, setSub, mulv,
        mZero, vOne, vZero]
    show ExecResult.ok ((fun _ => (0 : ℚ)), fluxDeriv opA mZero vOne,
      vortDeriv opA mZero mZero vOne vZero) = ExecResult.ok (zeroState 1)
    rw [hf, hv]
    rfl
  · intro h
    have h0 := congrFun h 0
    simp [sOne, vOne, zeroState] at h0

/-- C9 (amended): `Mult` clears the whole output vector first
(`dvx_dt = 0.0`), so its result ignores the output vector's prior
content entirely, and on success the phi-block of the result is the
zero vector — no phi dynamics is computed — while the psi- and w-blocks
are written with the computed flux and vorticity derivatives. -/
theorem explicitMult_phi_block_zeroed {n : ℕ} (op : MHDOp n)
    (vx dvxPrev dvxPrev2 : State n) :
    explicitMult op vx dvxPrev = explicitMult op vx dvxPrev2 ∧
      (∀ nv nb, op.Nv = some nv → op.Nb = some nb →
        explicitMult op vx dvxPrev =
          .ok ((fun _ => 0), fluxDeriv op nv vx.2.1,
            vortDeriv op nv nb vx.2.1 vx.2.2)) := by
  refine ⟨rfl, ?_⟩
  intro nv nb hv hb
  simp [explicitMult, hv, hb]

/-- Witness for the amended C9 at the one-DOF fixture. -/
theorem explicitMult_phi_block_zeroed_witness :
    opA.Nv = some mZero ∧ opA.Nb = some mZero ∧
      (explicitMult opA sPsiOne sOne = explicitMult opA sPsiOne (zeroState 1) ∧
        explicitMult opA sPsiOne sOne =
          .ok ((fun _ => 0), fluxDeriv opA mZero sPsiOne.2.1,
            vortDeriv opA mZero mZero sPsiOne.2.1 sPsiOne.2.2)) :=
  ⟨rfl, rfl,
    (explicitMult_phi_block_zeroed opA sPsiOne sOne (zeroState 1)).1,
    (explicitMult_phi_block_zeroed opA sPsiOne sOne (zeroState 1)).2 mZero mZero rfl rfl⟩

end MHD
